import Mathlib

/-!
Verification of the go-farm-bot session protocol engine and land-state
scheduler.  All definitions are shallow embeddings of the Go sources:
`internal/network/network.go` (transport session, correlator, user state)
and the `game` package (farm/friend managers, land analyzer, quotas).
Machine `int64` values are modelled as `Int`; where overflow matters the
explicit two's-complement wrap `int64Wrap` is applied.  Go maps are
modelled as functions to `Option`/`Bool`; byte slices as `List Nat`;
time is passed as an explicit parameter.
-/

namespace GoFarm

/-! ### Frame envelope and correlator (network.go) -/

/-- Embedding of `gatepb.Meta` (network.go wire envelope metadata). -/
structure Meta where
  serviceName : String
  methodName : String
  messageType : Int
  clientSeq : Int
  serverSeq : Int
  errorCode : Int
  errorMessage : String
deriving DecidableEq, Repr

/-- Embedding of `gatepb.Message`: `Meta` may be absent (nil), body is raw bytes. -/
structure GateMessage where
  meta : Option Meta
  body : List Nat
deriving DecidableEq, Repr

/-- Embedding of the `Response` struct delivered to a waiting caller.
`errored` records whether `Err` was set (`meta.ErrorCode != 0`). -/
structure NetResponse where
  body : List Nat
  meta : Meta
  errored : Bool
deriving DecidableEq, Repr

/-- The part of `NetworkManager` state that `handleMessage` touches:
the advisory `serverSeq` and the correlation map `pendingCallbacks`
(modelled by key presence: `pending seq = true` iff a caller's channel
is registered under `seq`). -/
structure NetState where
  serverSeq : Int
  pending : Int → Bool

/-- Observable effect of handling one inbound frame. -/
inductive HandleEffect
  | dropped
  | deliver (seq : Int) (resp : NetResponse)
  | notifyEvent (body : List Nat)
deriving DecidableEq, Repr

/-- Embedding of `NetworkManager.handleMessage` (network.go lines 291-341):
nil meta is dropped; `serverSeq` is updated when positive; messageType 3 is
routed to the notify handler; messageType 2 looks up and removes the pending
entry for `clientSeq` and delivers to it, or silently drops when absent;
any other type is dropped. -/
def handleMessage (st : NetState) (msg : GateMessage) : NetState × HandleEffect :=
  match msg.meta with
  | none => (st, .dropped)
  | some meta =>
    let st1 := if 0 < meta.serverSeq then { st with serverSeq := meta.serverSeq } else st
    if meta.messageType = 3 then
      (st1, .notifyEvent msg.body)
    else if meta.messageType = 2 then
      if st1.pending meta.clientSeq then
        ({ st1 with pending := fun s => if s = meta.clientSeq then false else st1.pending s },
         .deliver meta.clientSeq ⟨msg.body, meta, decide (meta.errorCode ≠ 0)⟩)
      else
        (st1, .dropped)
    else
      (st1, .dropped)

/-- Embedding of the timeout branch of `SendProtoMessage` (network.go lines
223-227): on timeout the caller deletes its own entry from
`pendingCallbacks`, so a late response finds no entry. -/
def timeoutRemovePending (st : NetState) (seq : Int) : NetState :=
  { st with pending := fun s => if s = seq then false else st.pending s }

/-! ### Sequence-number assignment (EncodeMessage) -/

/-- Two's-complement wrap of Go's `int64` arithmetic. -/
def int64Wrap (x : Int) : Int := (x + 2 ^ 63) % 2 ^ 64 - 2 ^ 63

/-- Embedding of the counter step of `NetworkManager.EncodeMessage`
(network.go line 146): `seq := atomic.AddInt64(&nm.clientSeq, 1)` —
returns the new counter value, which is also the assigned `clientSeq`. -/
def encodeMessageSeq (clientSeq : Int) : Int × Int :=
  let seq := int64Wrap (clientSeq + 1)
  (seq, seq)

/-- Counter value after `n` calls to `EncodeMessage`, starting from the
zero-initialised `NetworkManager` (Go zero value of `clientSeq`). -/
def clientSeqAfter : Nat → Int
  | 0 => 0
  | n + 1 => (encodeMessageSeq (clientSeqAfter n)).1

/-- The `clientSeq` assigned by the (n+1)-th call to `EncodeMessage`. -/
def assignedSeq (n : Nat) : Int := (encodeMessageSeq (clientSeqAfter n)).2

/-! ### UserState and handleBasicNotify -/

/-- Embedding of `UserState` (network.go): identity and live snapshot of the
authenticated player (lock omitted; the embedding is sequential). -/
structure UserState where
  gid : Int
  name : String
  level : Int
  gold : Int
  exp : Int
deriving DecidableEq, Repr

/-- Embedding of `userpb.BasicNotify.Basic`: the fields `handleBasicNotify`
reads. -/
structure BasicInfo where
  level : Int
  gold : Int
  exp : Int
deriving DecidableEq, Repr

/-- Embedding of `UserState.UpdateLevel`. -/
def UserState.updateLevel (u : UserState) (level : Int) : UserState :=
  { u with level := level }

/-- Embedding of `UserState.UpdateGold`. -/
def UserState.updateGold (u : UserState) (gold : Int) : UserState :=
  { u with gold := gold }

/-- Embedding of `UserState.UpdateExp`. -/
def UserState.updateExp (u : UserState) (exp : Int) : UserState :=
  { u with exp := exp }

/-- Embedding of `NetworkManager.handleBasicNotify` (network.go lines
522-559): a notification whose `Basic` is nil (or which fails to decode,
modelled together as `none`) changes nothing; otherwise level, gold and exp
are each overwritten only when the notified value is strictly positive.
The logging at the end of the Go function does not touch state. -/
def handleBasicNotify (u : UserState) (basic : Option BasicInfo) : UserState :=
  match basic with
  | none => u
  | some b =>
    let u1 := if 0 < b.level then u.updateLevel b.level else u
    let u2 := if 0 < b.gold then u1.updateGold b.gold else u1
    let u3 := if 0 < b.exp then u2.updateExp b.exp else u2
    u3

/-! ### Friend-manager daily quotas and experience exhaustion (game package) -/

/-- Embedding of `plantpb.OperationLimit`: the fields the friend manager
reads (`Id`, `DayTimes`, `DayTimesLt`, `DayExpTimes`). -/
structure OperationLimit where
  id : Int
  dayTimes : Int
  dayTimesLt : Int
  dayExpTimes : Int
deriving DecidableEq, Repr

/-- The configuration constant `HelpOnlyWithExp` of the friend manager. -/
def HelpOnlyWithExp : Bool := true

/-- The `FriendManager` fields involved in daily-quota and
experience-exhaustion tracking.  Go maps are modelled as functions:
`map[int32]*plantpb.OperationLimit` and `map[int32]int64` as functions to
`Option`, `map[int32]bool` as a function to `Bool` (missing key = false). -/
structure FriendQuotaState where
  lastResetDate : String
  operationLimits : Int → Option OperationLimit
  expTracker : Int → Option Int
  expExhausted : Int → Bool

/-- Embedding of `FriendManager.checkDailyReset`: when the local date key
differs from `lastResetDate`, all three tracking maps are reset to fresh
empty maps (the current date is passed explicitly). -/
def checkDailyReset (today : String) (st : FriendQuotaState) : FriendQuotaState :=
  if today ≠ st.lastResetDate then
    { lastResetDate := today
      operationLimits := fun _ => none
      expTracker := fun _ => none
      expExhausted := fun _ => false }
  else st

/-- Embedding of `FriendManager.isLimitReached`: no record means not
reached; otherwise reached iff a positive daily ceiling has been met. -/
def isLimitReached (st : FriendQuotaState) (opId : Int) : Bool :=
  match st.operationLimits opId with
  | none => false
  | some limit => decide (0 < limit.dayTimesLt) && decide (limit.dayTimesLt ≤ limit.dayTimes)

/-- One iteration of the loop body of `FriendManager.updateOperationLimits`
for a non-nil limit: store the record, then (under `HelpOnlyWithExp`) mark
the operation exhausted when the reported `DayExpTimes` failed to exceed the
value tracked before the call. -/
def updateOneLimit (st : FriendQuotaState) (limit : OperationLimit) : FriendQuotaState :=
  let opId := limit.id
  let st1 := { st with
    operationLimits := fun k => if k = opId then some limit else st.operationLimits k }
  if HelpOnlyWithExp then
    match st.expTracker opId with
    | some beforeExp =>
      if limit.dayExpTimes ≤ beforeExp then
        { st1 with expExhausted := fun k => if k = opId then true else st1.expExhausted k }
      else st1
    | none => st1
  else st1

/-- Embedding of `FriendManager.updateOperationLimits` over the (non-nil)
limit records of an action reply. -/
def updateOperationLimits (st : FriendQuotaState) : List OperationLimit → FriendQuotaState
  | [] => st
  | limit :: rest => updateOperationLimits (updateOneLimit st limit) rest

/-- Embedding of `FriendManager.canGetExp`. -/
def canGetExp (st : FriendQuotaState) (opId : Int) : Bool :=
  if HelpOnlyWithExp then !st.expExhausted opId else true

/-- Embedding of `FriendManager.trackExpBefore`: records the operation's
current `DayExpTimes` before an assistance call, when a record exists. -/
def trackExpBefore (st : FriendQuotaState) (opId : Int) : FriendQuotaState :=
  if HelpOnlyWithExp then
    match st.operationLimits opId with
    | some limit =>
      { st with
        expTracker := fun k => if k = opId then some limit.dayExpTimes else st.expTracker k }
    | none => st
  else st

/-- The guard of each assistance block in
`FriendManager.performFriendOperations`, e.g.
`len(status.NeedWater) > 0 && fm.canGetExp(OpWaterLand) && !fm.isLimitReached(OpWaterLand)`. -/
def wouldAssist (st : FriendQuotaState) (opId : Int) (needCount : Nat) : Bool :=
  decide (0 < needCount) && canGetExp st opId && !isLimitReached st opId

/-! ### Land snapshot model and time normalisation (game package) -/

/-- Embedding of `utils.ToTimeSec`: non-positive timestamps normalise to 0,
millisecond timestamps (greater than 1e12) are scaled down to seconds. -/
def toTimeSec (n : Int) : Int :=
  if n ≤ 0 then 0 else if 10 ^ 12 < n then n / 1000 else n

/-- Embedding of `plantpb.PlantPhaseInfo`: the fields the analyzers read. -/
structure PlantPhaseInfo where
  phase : Int
  beginTime : Int
  dryTime : Int
  weedsTime : Int
  insectTime : Int
deriving DecidableEq, Repr

/-- Embedding of `plantpb.PlantInfo`: the fields the analyzers read. -/
structure PlantInfo where
  id : Int
  phases : List PlantPhaseInfo
  dryNum : Int
  weedOwners : List Int
  insectOwners : List Int
  stealable : Bool
  leftFruitNum : Int
deriving DecidableEq, Repr

/-- Embedding of `plantpb.LandInfo` (nil plant = `none`). -/
structure LandInfo where
  id : Int
  unlocked : Bool
  plant : Option PlantInfo
deriving DecidableEq, Repr

/-- `config.PlantPhaseMature`. -/
def PlantPhaseMature : Int := 6

/-- `config.PlantPhaseDead`. -/
def PlantPhaseDead : Int := 7

/-- The loop condition of `getCurrentPhase`: a phase has begun when its
normalised `beginTime` is positive and not after `nowSec`. -/
def phaseStarted (p : PlantPhaseInfo) (nowSec : Int) : Bool :=
  decide (0 < toTimeSec p.beginTime) && decide (toTimeSec p.beginTime ≤ nowSec)

/-- The backward scan of `getCurrentPhase` (loop from the last index down):
the last phase in list order whose begin time has passed, if any. -/
def findLastStarted (phases : List PlantPhaseInfo) (nowSec : Int) : Option PlantPhaseInfo :=
  match phases with
  | [] => none
  | p :: rest =>
    match findLastStarted rest nowSec with
    | some q => some q
    | none => if phaseStarted p nowSec then some p else none

/-- Embedding of `getCurrentPhase` (identical in farm.go and friend.go):
nil for an empty phase list; otherwise the latest begun phase, falling back
to the first phase when every phase lies in the future. -/
def getCurrentPhase (phases : List PlantPhaseInfo) (nowSec : Int) : Option PlantPhaseInfo :=
  match phases with
  | [] => none
  | p :: rest =>
    match findLastStarted (p :: rest) nowSec with
    | some q => some q
    | none => some p

/-- The phase-selection rule exactly as the specification words it: scanning
backward, the latest phase whose (normalised) `beginTime` is ≤ now; if none
qualifies, the first phase.  Used only to compare the specification wording
against the implemented `getCurrentPhase`. -/
def findLastLe (phases : List PlantPhaseInfo) (nowSec : Int) : Option PlantPhaseInfo :=
  match phases with
  | [] => none
  | p :: rest =>
    match findLastLe rest nowSec with
    | some q => some q
    | none => if toTimeSec p.beginTime ≤ nowSec then some p else none

/-- Spec-worded current-phase selection (see `findLastLe`). -/
def specCurrentPhase (phases : List PlantPhaseInfo) (nowSec : Int) : Option PlantPhaseInfo :=
  match phases with
  | [] => none
  | p :: rest =>
    match findLastLe (p :: rest) nowSec with
    | some q => some q
    | none => some p

/-! ### Land state analyzer (farm manager) -/

/-- Embedding of `LandStatus` (farm.go); `harvestableInfo` keeps the
(landID, plantID) pairs, the name/exp lookups being external data. -/
structure LandStatus where
  harvestable : List Int
  needWater : List Int
  needWeed : List Int
  needBug : List Int
  growing : List Int
  empty : List Int
  dead : List Int
  harvestableInfo : List (Int × Int)
deriving DecidableEq, Repr

/-- The zero-value `LandStatus` the analyzer starts from. -/
def emptyLandStatus : LandStatus := ⟨[], [], [], [], [], [], [], []⟩

/-- Embedding of the helper `containsInt64`. -/
def containsInt64 (slice : List Int) (val : Int) : Bool :=
  slice.any (· == val)

/-- The `default` (actively growing) branch of the `AnalyzeLands` loop
body: the dual-detected need flags, with the `containsInt64`
de-duplication guards of the source, followed by the growing append. -/
def growingNeedsStep (nowSec : Int) (result : LandStatus) (land : LandInfo)
    (plant : PlantInfo) (currentPhase : PlantPhaseInfo) : LandStatus :=
  let r1 := if 0 < plant.dryNum then
      { result with needWater := result.needWater ++ [land.id] }
    else result
  let dryTime := toTimeSec currentPhase.dryTime
  let r2 := if 0 < dryTime ∧ dryTime ≤ nowSec then
      (if containsInt64 r1.needWater land.id then r1
       else { r1 with needWater := r1.needWater ++ [land.id] })
    else r1
  let r3 := if 0 < plant.weedOwners.length then
      { r2 with needWeed := r2.needWeed ++ [land.id] }
    else r2
  let weedsTime := toTimeSec currentPhase.weedsTime
  let r4 := if 0 < weedsTime ∧ weedsTime ≤ nowSec then
      (if containsInt64 r3.needWeed land.id then r3
       else { r3 with needWeed := r3.needWeed ++ [land.id] })
    else r3
  let r5 := if 0 < plant.insectOwners.length then
      { r4 with needBug := r4.needBug ++ [land.id] }
    else r4
  let insectTime := toTimeSec currentPhase.insectTime
  let r6 := if 0 < insectTime ∧ insectTime ≤ nowSec then
      (if containsInt64 r5.needBug land.id then r5
       else { r5 with needBug := r5.needBug ++ [land.id] })
    else r5
  { r6 with growing := r6.growing ++ [land.id] }

/-- One iteration of the loop body of `FarmManager.AnalyzeLands` for a
non-nil land: locked plots are skipped; no plant or no phase history is
empty; otherwise the current phase decides dead / harvestable / growing
(the growing branch is `growingNeedsStep`). -/
def analyzeLandsStep (nowSec : Int) (result : LandStatus) (land : LandInfo) : LandStatus :=
  if !land.unlocked then result
  else
    match land.plant with
    | none => { result with empty := result.empty ++ [land.id] }
    | some plant =>
      if plant.phases = [] then { result with empty := result.empty ++ [land.id] }
      else
        match getCurrentPhase plant.phases nowSec with
        | none => { result with empty := result.empty ++ [land.id] }
        | some currentPhase =>
          if currentPhase.phase = PlantPhaseDead then
            { result with dead := result.dead ++ [land.id] }
          else if currentPhase.phase = PlantPhaseMature then
            { result with
              harvestable := result.harvestable ++ [land.id]
              harvestableInfo := result.harvestableInfo ++ [(land.id, plant.id)] }
          else
            growingNeedsStep nowSec result land plant currentPhase

/-- The loop of `FarmManager.AnalyzeLands` over the snapshot. -/
def analyzeLandsAux (nowSec : Int) (result : LandStatus) : List LandInfo → LandStatus
  | [] => result
  | land :: rest => analyzeLandsAux nowSec (analyzeLandsStep nowSec result land) rest

/-- Embedding of `FarmManager.AnalyzeLands` (the server time is passed as
the explicit parameter `nowSec`). -/
def analyzeLands (lands : List LandInfo) (nowSec : Int) : LandStatus :=
  analyzeLandsAux nowSec emptyLandStatus lands

/-! ### Per-land classification (derived from the same decision tree) -/

/-- The four categories of an unlocked plot, plus `skip` for locked ones. -/
inductive LandCat
  | empty
  | dead
  | harvestable
  | growing
  | skip
deriving DecidableEq, Repr

/-- The category `AnalyzeLands` assigns to one land. -/
def classifyLand (land : LandInfo) (nowSec : Int) : LandCat :=
  if !land.unlocked then .skip
  else
    match land.plant with
    | none => .empty
    | some plant =>
      if plant.phases = [] then .empty
      else
        match getCurrentPhase plant.phases nowSec with
        | none => .empty
        | some cp =>
          if cp.phase = PlantPhaseDead then .dead
          else if cp.phase = PlantPhaseMature then .harvestable
          else .growing

/-- The dual-detection water condition of one land's current phase. -/
def landNeedsWater (land : LandInfo) (nowSec : Int) : Bool :=
  match land.plant with
  | none => false
  | some plant =>
    match getCurrentPhase plant.phases nowSec with
    | none => false
    | some cp =>
      decide (0 < plant.dryNum) ||
        (decide (0 < toTimeSec cp.dryTime) && decide (toTimeSec cp.dryTime ≤ nowSec))

/-- The dual-detection weed condition of one land's current phase. -/
def landNeedsWeed (land : LandInfo) (nowSec : Int) : Bool :=
  match land.plant with
  | none => false
  | some plant =>
    match getCurrentPhase plant.phases nowSec with
    | none => false
    | some cp =>
      decide (0 < plant.weedOwners.length) ||
        (decide (0 < toTimeSec cp.weedsTime) && decide (toTimeSec cp.weedsTime ≤ nowSec))

/-- The dual-detection insect condition of one land's current phase. -/
def landNeedsBug (land : LandInfo) (nowSec : Int) : Bool :=
  match land.plant with
  | none => false
  | some plant =>
    match getCurrentPhase plant.phases nowSec with
    | none => false
    | some cp =>
      decide (0 < plant.insectOwners.length) ||
        (decide (0 < toTimeSec cp.insectTime) && decide (toTimeSec cp.insectTime ≤ nowSec))

/-- The ids the analyzer is expected to place in category `c`. -/
def catIds (lands : List LandInfo) (nowSec : Int) (c : LandCat) : List Int :=
  (lands.filter fun l => decide (classifyLand l nowSec = c)).map (·.id)

/-- The ids the analyzer is expected to flag as needing water. -/
def needWaterIds (lands : List LandInfo) (nowSec : Int) : List Int :=
  (lands.filter fun l =>
    decide (classifyLand l nowSec = LandCat.growing) && landNeedsWater l nowSec).map (·.id)

/-- The ids the analyzer is expected to flag as needing weeding. -/
def needWeedIds (lands : List LandInfo) (nowSec : Int) : List Int :=
  (lands.filter fun l =>
    decide (classifyLand l nowSec = LandCat.growing) && landNeedsWeed l nowSec).map (·.id)

/-- The ids the analyzer is expected to flag as needing insect removal. -/
def needBugIds (lands : List LandInfo) (nowSec : Int) : List Int :=
  (lands.filter fun l =>
    decide (classifyLand l nowSec = LandCat.growing) && landNeedsBug l nowSec).map (·.id)

/-- The number of the four category lists of a `LandStatus` containing `x`. -/
def catMemCount (r : LandStatus) (x : Int) : Nat :=
  (if x ∈ r.empty then 1 else 0) + (if x ∈ r.dead then 1 else 0) +
    (if x ∈ r.harvestable then 1 else 0) + (if x ∈ r.growing then 1 else 0)

/-! ### Theorems: correlator, sequencing, basic-notify frame effect -/

/-- Counter value after n encodes equals n while below the int64 bound. -/
lemma clientSeqAfter_eq (n : Nat) (h : (n : Int) < 2 ^ 63) : clientSeqAfter n = n := by
  induction n with
  | zero => rfl
  | succ k ih =>
    have hk : (k : Int) < 2 ^ 63 := by
      have : ((k : Int)) < (k + 1 : Nat) := by push_cast; omega
      exact lt_trans this h
    show (encodeMessageSeq (clientSeqAfter k)).1 = ((k + 1 : Nat) : Int)
    rw [ih hk]
    simp only [encodeMessageSeq, int64Wrap]
    have h0 : (0 : Int) ≤ (k : Int) + 1 + 2 ^ 63 := by positivity
    have h1 : (k : Int) + 1 + 2 ^ 63 < 2 ^ 64 := by
      have hpow : (2 : Int) ^ 64 = 2 ^ 63 + 2 ^ 63 := by norm_num
      have : ((k : Int)) + 1 ≤ 2 ^ 63 := by
        have : ((k + 1 : Nat) : Int) ≤ 2 ^ 63 := by push_cast at h ⊢; omega
        push_cast at this; omega
      omega
    rw [Int.emod_eq_of_lt h0 h1]
    push_cast
    ring

/-- The (n+1)-th assigned sequence number is n+1 while below the int64 bound. -/
lemma assignedSeq_eq (n : Nat) (h : (n : Int) + 1 < 2 ^ 63) : assignedSeq n = (n : Int) + 1 := by
  have hn : (n : Int) < 2 ^ 63 := by omega
  simp only [assignedSeq, encodeMessageSeq, int64Wrap, clientSeqAfter_eq n hn]
  have h0 : (0 : Int) ≤ (n : Int) + 1 + 2 ^ 63 := by positivity
  have h1 : (n : Int) + 1 + 2 ^ 63 < 2 ^ 64 := by
    have hpow : (2 : Int) ^ 64 = 2 ^ 63 + 2 ^ 63 := by norm_num
    omega
  rw [Int.emod_eq_of_lt h0 h1]
  ring

/-- Helper: a Response frame whose clientSeq has no pending entry is dropped
and leaves the correlation map untouched. -/
lemma handleMessage_drop_of_absent
    (st : NetState) (msg : GateMessage) (meta : Meta)
    (hm : msg.meta = some meta) (ht : meta.messageType = 2)
    (hp : st.pending meta.clientSeq = false) :
    (handleMessage st msg).2 = .dropped ∧ (handleMessage st msg).1.pending = st.pending := by
  have h3 : meta.messageType ≠ 3 := by omega
  simp [handleMessage, hm, h3, ht]
  split_ifs <;> simp_all

/-- Helper: after handling a Response frame, no entry remains under its
clientSeq (it was removed if present, and was already absent otherwise). -/
lemma handleMessage_pending_cleared
    (st : NetState) (msg : GateMessage) (meta : Meta)
    (hm : msg.meta = some meta) (ht : meta.messageType = 2) :
    (handleMessage st msg).1.pending meta.clientSeq = false := by
  have h3 : meta.messageType ≠ 3 := by omega
  simp [handleMessage, hm, h3, ht]
  split_ifs <;> simp_all

/-- C1: at most one delivery per sequence number.  Handling a Response frame
looks up and removes the pending entry for its `clientSeq` in the same step
that delivers the result; a response whose `clientSeq` has no pending entry
(including one arriving after the caller's timeout removed its own entry,
and a second response for an already-resolved sequence) causes no delivery
and is silently dropped. -/
theorem handleMessage_at_most_one_delivery
    (st : NetState) (msg msg2 : GateMessage) (meta meta2 : Meta)
    (hm : msg.meta = some meta) (ht : meta.messageType = 2) :
    (st.pending meta.clientSeq = false →
      (handleMessage st msg).2 = .dropped ∧
      (handleMessage st msg).1.pending = st.pending) ∧
    (st.pending meta.clientSeq = true →
      (handleMessage st msg).2 =
        .deliver meta.clientSeq ⟨msg.body, meta, decide (meta.errorCode ≠ 0)⟩ ∧
      (handleMessage st msg).1.pending meta.clientSeq = false) ∧
    (msg2.meta = some meta2 → meta2.messageType = 2 → meta2.clientSeq = meta.clientSeq →
      (handleMessage (handleMessage st msg).1 msg2).2 = .dropped) ∧
    (handleMessage (timeoutRemovePending st meta.clientSeq) msg).2 = .dropped := by
  have h3 : meta.messageType ≠ 3 := by omega
  refine ⟨fun hp => handleMessage_drop_of_absent st msg meta hm ht hp, ?_, ?_, ?_⟩
  · intro hp
    refine ⟨?_, handleMessage_pending_cleared st msg meta hm ht⟩
    simp [handleMessage, hm, h3, ht]
    split_ifs <;> simp_all
  · intro hm2 ht2 hseq
    have hp2 : (handleMessage st msg).1.pending meta2.clientSeq = false := by
      rw [hseq]; exact handleMessage_pending_cleared st msg meta hm ht
    exact (handleMessage_drop_of_absent _ msg2 meta2 hm2 ht2 hp2).1
  · have hp : (timeoutRemovePending st meta.clientSeq).pending meta.clientSeq = false := by
      simp [timeoutRemovePending]
    exact (handleMessage_drop_of_absent _ msg meta hm ht hp).1

/-- Witness for C1: the correlator theorem applied to a concrete state with
sequence 5 pending, a matching response frame, and a retransmitted copy. -/
theorem handleMessage_at_most_one_delivery_witness :
    let st : NetState := ⟨0, fun s => s = 5⟩
    let meta : Meta := ⟨"svc", "m", 2, 5, 9, 0, ""⟩
    let msg : GateMessage := ⟨some meta, [1, 2]⟩
    (handleMessage st msg).2 =
        .deliver meta.clientSeq ⟨msg.body, meta, decide (meta.errorCode ≠ 0)⟩ ∧
      (handleMessage st msg).1.pending meta.clientSeq = false := by
  intro st meta msg
  exact (handleMessage_at_most_one_delivery st msg msg meta meta rfl rfl).2.1 (by decide)

/-- C2: clientSeq values assigned by successive `EncodeMessage` calls within
one session are unique and strictly increasing (within the int64 range of
the atomic counter, i.e. for fewer than 2^63 requests). -/
theorem encodeMessage_seq_strictly_increasing (i j : Nat)
    (hij : i < j) (hj : (j : Int) + 1 < 2 ^ 63) :
    assignedSeq i < assignedSeq j ∧ assignedSeq i ≠ assignedSeq j := by
  have hi : (i : Int) + 1 < 2 ^ 63 := by
    have : (i : Int) < (j : Int) := by exact_mod_cast hij
    omega
  rw [assignedSeq_eq i hi, assignedSeq_eq j hj]
  have : (i : Int) < (j : Int) := by exact_mod_cast hij
  constructor <;> omega

/-- Witness for C2: the first two assigned sequence numbers. -/
theorem encodeMessage_seq_strictly_increasing_witness :
    assignedSeq 0 < assignedSeq 1 ∧ assignedSeq 0 ≠ assignedSeq 1 :=
  encodeMessage_seq_strictly_increasing 0 1 (by decide) (by norm_num)

/-- C10: `handleBasicNotify` overwrites each of level, gold and experience
only when the notification carries a strictly positive value for that field;
a zero or negative field leaves the stored value unchanged, and GID and name
are never modified.  A notification without a `Basic` payload changes
nothing. -/
theorem handleBasicNotify_frame_effect (u : UserState) (b : BasicInfo) :
    (handleBasicNotify u (some b)).level = (if 0 < b.level then b.level else u.level) ∧
    (handleBasicNotify u (some b)).gold = (if 0 < b.gold then b.gold else u.gold) ∧
    (handleBasicNotify u (some b)).exp = (if 0 < b.exp then b.exp else u.exp) ∧
    (handleBasicNotify u (some b)).gid = u.gid ∧
    (handleBasicNotify u (some b)).name = u.name ∧
    handleBasicNotify u none = u := by
  refine ⟨?_, ?_, ?_, ?_, ?_, rfl⟩ <;>
    simp only [handleBasicNotify, UserState.updateLevel, UserState.updateGold,
      UserState.updateExp] <;>
    split_ifs <;> rfl

/-- Helper: `updateOneLimit` never clears an exhaustion flag. -/
lemma updateOneLimit_exhausted_mono (st : FriendQuotaState) (limit : OperationLimit)
    (k : Int) (h : st.expExhausted k = true) :
    (updateOneLimit st limit).expExhausted k = true := by
  simp only [updateOneLimit, HelpOnlyWithExp, if_true]
  cases st.expTracker limit.id with
  | none => exact h
  | some beforeExp =>
    by_cases hle : limit.dayExpTimes ≤ beforeExp <;> simp [hle, h]

/-- Helper: `updateOperationLimits` never clears an exhaustion flag. -/
lemma updateOperationLimits_exhausted_mono (limits : List OperationLimit) :
    ∀ (st : FriendQuotaState) (k : Int), st.expExhausted k = true →
      (updateOperationLimits st limits).expExhausted k = true := by
  induction limits with
  | nil => intro st k h; exact h
  | cons limit rest ih =>
    intro st k h
    exact ih (updateOneLimit st limit) k (updateOneLimit_exhausted_mono st limit k h)

/-- C6: after the local calendar date changes, the first reset check clears
the `OperationLimit` records, the experience trackers and the exhaustion
flags, so a subsequent quota check for any operation kind reports not
reached. -/
theorem checkDailyReset_clears (st : FriendQuotaState) (today : String)
    (h : today ≠ st.lastResetDate) :
    (checkDailyReset today st).operationLimits = (fun _ => none) ∧
    (checkDailyReset today st).expTracker = (fun _ => none) ∧
    (checkDailyReset today st).expExhausted = (fun _ => false) ∧
    ∀ opId : Int, isLimitReached (checkDailyReset today st) opId = false := by
  simp [checkDailyReset, h, isLimitReached]

/-- Witness for C6: a concrete state whose water-assist quota is exhausted,
reset on the next day, reports the limit as not reached. -/
theorem checkDailyReset_clears_witness :
    let st : FriendQuotaState :=
      ⟨"2026-10-10", fun _ => some ⟨10007, 5, 5, 3⟩, fun _ => some 3, fun _ => true⟩
    isLimitReached (checkDailyReset "2026-10-11" st) 10007 = false := by
  intro st
  exact (checkDailyReset_clears st "2026-10-11" (by decide)).2.2.2 10007

/-- C7: when a successful assistance call's reported day-experience counter
does not strictly increase over the value tracked before the call, the
operation kind is marked exhausted; afterwards `canGetExp` answers false and
the assistance guard of `performFriendOperations` skips that kind; the flag
is never cleared by further limit updates, and the daily reset restores
`canGetExp` to true. -/
theorem expExhaustion_detection
    (st : FriendQuotaState) (L0 L1 : OperationLimit) (opId : Int)
    (limits : List OperationLimit) (today : String) (n : Nat) :
    (st.expExhausted opId = true →
      (updateOperationLimits st limits).expExhausted opId = true) ∧
    (L1.id = opId → st.operationLimits opId = some L0 → L1.dayExpTimes ≤ L0.dayExpTimes →
      (updateOperationLimits (trackExpBefore st opId) [L1]).expExhausted opId = true ∧
      canGetExp (updateOperationLimits (trackExpBefore st opId) [L1]) opId = false) ∧
    (canGetExp st opId = false → wouldAssist st opId n = false) ∧
    (today ≠ st.lastResetDate → canGetExp (checkDailyReset today st) opId = true) := by
  refine ⟨fun h => updateOperationLimits_exhausted_mono limits st opId h, ?_, ?_, ?_⟩
  · intro hid hL0 hle
    have hmark : (updateOneLimit (trackExpBefore st opId) L1).expExhausted opId = true := by
      simp only [trackExpBefore, updateOneLimit, HelpOnlyWithExp, if_true, hL0, hid]
      simp [hle]
    refine ⟨hmark, ?_⟩
    simp [canGetExp, HelpOnlyWithExp, updateOperationLimits, hmark]
  · intro h
    simp [wouldAssist, h]
  · intro h
    simp [canGetExp, checkDailyReset, h, HelpOnlyWithExp]

/-- Witness for C7: concrete scenario — water assistance (op 10007) tracked
at 3 day-experience grants; the reply after a successful call still reports
3, so the kind is marked exhausted, the guard skips it, and the next-day
reset clears it. -/
theorem expExhaustion_detection_witness :
    let st : FriendQuotaState :=
      ⟨"2026-10-10", fun k => if k = 10007 then some ⟨10007, 4, 0, 3⟩ else none,
        fun _ => none, fun _ => false⟩
    let L1 : OperationLimit := ⟨10007, 5, 0, 3⟩
    canGetExp (updateOperationLimits (trackExpBefore st 10007) [L1]) 10007 = false ∧
    canGetExp (checkDailyReset "2026-10-11" st) 10007 = true := by
  intro st L1
  refine ⟨?_, ?_⟩
  · exact ((expExhaustion_detection st ⟨10007, 4, 0, 3⟩ L1 10007 [] "x" 0).2.1
      rfl (by simp [st]) (by decide)).2
  · exact (expExhaustion_detection st ⟨10007, 4, 0, 3⟩ L1 10007 [] "2026-10-11" 0).2.2.2
      (by decide)

/-! ### Analyzer characterization lemmas -/

/-- `containsInt64` decides membership. -/
lemma containsInt64_iff (xs : List Int) (v : Int) : containsInt64 xs v = true ↔ v ∈ xs := by
  simp [containsInt64, List.any_eq_true, beq_iff_eq]

/-- `containsInt64` decides non-membership. -/
lemma containsInt64_eq_false_iff (xs : List Int) (v : Int) :
    containsInt64 xs v = false ↔ v ∉ xs := by
  rw [← Bool.not_eq_true, containsInt64_iff]

/-- A non-empty phase list always yields a current phase. -/
lemma getCurrentPhase_isSome (phases : List PlantPhaseInfo) (now : Int) (h : phases ≠ []) :
    ∃ p, getCurrentPhase phases now = some p := by
  match phases with
  | [] => exact absurd rfl h
  | p :: rest =>
    simp only [getCurrentPhase]
    cases findLastStarted (p :: rest) now with
    | none => exact ⟨p, rfl⟩
    | some q => exact ⟨q, rfl⟩

/-- Field effects of the growing branch: only the need lists and the
growing list change, and each need list gains the land's id exactly once
iff the corresponding dual-detection condition holds. -/
lemma growingNeedsStep_fields (now : Int) (r : LandStatus) (land : LandInfo)
    (plant : PlantInfo) (cp : PlantPhaseInfo)
    (hw : containsInt64 r.needWater land.id = false)
    (hwd : containsInt64 r.needWeed land.id = false)
    (hb : containsInt64 r.needBug land.id = false) :
    (growingNeedsStep now r land plant cp).empty = r.empty ∧
    (growingNeedsStep now r land plant cp).dead = r.dead ∧
    (growingNeedsStep now r land plant cp).harvestable = r.harvestable ∧
    (growingNeedsStep now r land plant cp).growing = r.growing ++ [land.id] ∧
    (growingNeedsStep now r land plant cp).needWater
      = r.needWater ++
        (if 0 < plant.dryNum ∨ (0 < toTimeSec cp.dryTime ∧ toTimeSec cp.dryTime ≤ now)
          then [land.id] else []) ∧
    (growingNeedsStep now r land plant cp).needWeed
      = r.needWeed ++
        (if 0 < plant.weedOwners.length ∨
            (0 < toTimeSec cp.weedsTime ∧ toTimeSec cp.weedsTime ≤ now)
          then [land.id] else []) ∧
    (growingNeedsStep now r land plant cp).needBug
      = r.needBug ++
        (if 0 < plant.insectOwners.length ∨
            (0 < toTimeSec cp.insectTime ∧ toTimeSec cp.insectTime ≤ now)
          then [land.id] else []) := by
  have hcw : containsInt64 (r.needWater ++ [land.id]) land.id = true := by
    simp [containsInt64_iff]
  have hcwd : containsInt64 (r.needWeed ++ [land.id]) land.id = true := by
    simp [containsInt64_iff]
  have hcb : containsInt64 (r.needBug ++ [land.id]) land.id = true := by
    simp [containsInt64_iff]
  refine ⟨?_, ?_, ?_, ?_, ?_, ?_, ?_⟩ <;>
    simp only [growingNeedsStep, apply_ite LandStatus.empty, apply_ite LandStatus.dead,
      apply_ite LandStatus.harvestable, apply_ite LandStatus.growing,
      apply_ite LandStatus.needWater, apply_ite LandStatus.needWeed,
      apply_ite LandStatus.needBug, ite_self]
  · by_cases c1 : 0 < plant.dryNum <;>
      by_cases c2 : 0 < toTimeSec cp.dryTime ∧ toTimeSec cp.dryTime ≤ now <;>
      simp [c1, c2, hw, hcw]
  · by_cases c3 : 0 < plant.weedOwners.length <;>
      by_cases c4 : 0 < toTimeSec cp.weedsTime ∧ toTimeSec cp.weedsTime ≤ now <;>
      simp [c3, c4, hwd, hcwd]
  · by_cases c5 : 0 < plant.insectOwners.length <;>
      by_cases c6 : 0 < toTimeSec cp.insectTime ∧ toTimeSec cp.insectTime ≤ now <;>
      simp [c5, c6, hb, hcb]

/-- Effect of one `AnalyzeLands` loop iteration on each output list, in
terms of the per-land classification, assuming the land's id is not yet
flagged in any need list. -/
lemma analyzeLandsStep_char (now : Int) (r : LandStatus) (land : LandInfo)
    (hw : containsInt64 r.needWater land.id = false)
    (hwd : containsInt64 r.needWeed land.id = false)
    (hb : containsInt64 r.needBug land.id = false) :
    (analyzeLandsStep now r land).empty
      = r.empty ++ (if classifyLand land now = LandCat.empty then [land.id] else []) ∧
    (analyzeLandsStep now r land).dead
      = r.dead ++ (if classifyLand land now = LandCat.dead then [land.id] else []) ∧
    (analyzeLandsStep now r land).harvestable
      = r.harvestable ++ (if classifyLand land now = LandCat.harvestable then [land.id] else []) ∧
    (analyzeLandsStep now r land).growing
      = r.growing ++ (if classifyLand land now = LandCat.growing then [land.id] else []) ∧
    (analyzeLandsStep now r land).needWater
      = r.needWater ++
        (if classifyLand land now = LandCat.growing ∧ landNeedsWater land now = true
          then [land.id] else []) ∧
    (analyzeLandsStep now r land).needWeed
      = r.needWeed ++
        (if classifyLand land now = LandCat.growing ∧ landNeedsWeed land now = true
          then [land.id] else []) ∧
    (analyzeLandsStep now r land).needBug
      = r.needBug ++
        (if classifyLand land now = LandCat.growing ∧ landNeedsBug land now = true
          then [land.id] else []) := by
  cases hu : land.unlocked with
  | false =>
    simp [analyzeLandsStep, classifyLand, hu]
  | true =>
    cases hpl : land.plant with
    | none =>
      simp [analyzeLandsStep, classifyLand, landNeedsWater, landNeedsWeed, landNeedsBug, hu, hpl]
    | some plant =>
      by_cases hph : plant.phases = []
      · simp [analyzeLandsStep, classifyLand, landNeedsWater, landNeedsWeed, landNeedsBug,
          hu, hpl, hph, getCurrentPhase]
      · obtain ⟨cp, hcp⟩ := getCurrentPhase_isSome plant.phases now hph
        by_cases hd : cp.phase = PlantPhaseDead
        · simp [analyzeLandsStep, classifyLand, landNeedsWater, landNeedsWeed, landNeedsBug,
            hu, hpl, hph, hcp, hd, PlantPhaseMature, PlantPhaseDead]
        · by_cases hm : cp.phase = PlantPhaseMature
          · simp [analyzeLandsStep, classifyLand, landNeedsWater, landNeedsWeed, landNeedsBug,
              hu, hpl, hph, hcp, hd, hm, PlantPhaseMature, PlantPhaseDead]
          · have hclass : classifyLand land now = LandCat.growing := by
              simp [classifyLand, hu, hpl, hph, hcp, hd, hm]
            have hstep : analyzeLandsStep now r land = growingNeedsStep now r land plant cp := by
              simp [analyzeLandsStep, hu, hpl, hph, hcp, hd, hm]
            obtain ⟨g1, g2, g3, g4, g5, g6, g7⟩ :=
              growingNeedsStep_fields now r land plant cp hw hwd hb
            rw [hstep]
            refine ⟨?_, ?_, ?_, ?_, ?_, ?_, ?_⟩ <;>
              simp [g1, g2, g3, g4, g5, g6, g7, hclass,
                landNeedsWater, landNeedsWeed, landNeedsBug, hpl, hcp]

/-- `catIds` over a cons. -/
lemma catIds_cons (land : LandInfo) (rest : List LandInfo) (now : Int) (c : LandCat) :
    catIds (land :: rest) now c
      = (if classifyLand land now = c then [land.id] else []) ++ catIds rest now c := by
  simp only [catIds, List.filter_cons]
  split_ifs <;> simp_all

/-- `needWaterIds` over a cons. -/
lemma needWaterIds_cons (land : LandInfo) (rest : List LandInfo) (now : Int) :
    needWaterIds (land :: rest) now
      = (if classifyLand land now = LandCat.growing ∧ landNeedsWater land now = true
          then [land.id] else []) ++ needWaterIds rest now := by
  simp only [needWaterIds, List.filter_cons]
  split_ifs <;> simp_all

/-- `needWeedIds` over a cons. -/
lemma needWeedIds_cons (land : LandInfo) (rest : List LandInfo) (now : Int) :
    needWeedIds (land :: rest) now
      = (if classifyLand land now = LandCat.growing ∧ landNeedsWeed land now = true
          then [land.id] else []) ++ needWeedIds rest now := by
  simp only [needWeedIds, List.filter_cons]
  split_ifs <;> simp_all

/-- `needBugIds` over a cons. -/
lemma needBugIds_cons (land : LandInfo) (rest : List LandInfo) (now : Int) :
    needBugIds (land :: rest) now
      = (if classifyLand land now = LandCat.growing ∧ landNeedsBug land now = true
          then [land.id] else []) ++ needBugIds rest now := by
  simp only [needBugIds, List.filter_cons]
  split_ifs <;> simp_all

/-- Complete characterization of the `AnalyzeLands` loop: starting from any
accumulator whose need lists avoid the ids of a duplicate-free snapshot,
every output list is the accumulator followed by the per-land predictions. -/
lemma analyzeLandsAux_char (now : Int) (lands : List LandInfo) :
    ∀ r : LandStatus,
      (∀ l ∈ lands, l.id ∉ r.needWater) →
      (∀ l ∈ lands, l.id ∉ r.needWeed) →
      (∀ l ∈ lands, l.id ∉ r.needBug) →
      (lands.map (·.id)).Nodup →
      (analyzeLandsAux now r lands).empty = r.empty ++ catIds lands now LandCat.empty ∧
      (analyzeLandsAux now r lands).dead = r.dead ++ catIds lands now LandCat.dead ∧
      (analyzeLandsAux now r lands).harvestable
        = r.harvestable ++ catIds lands now LandCat.harvestable ∧
      (analyzeLandsAux now r lands).growing = r.growing ++ catIds lands now LandCat.growing ∧
      (analyzeLandsAux now r lands).needWater = r.needWater ++ needWaterIds lands now ∧
      (analyzeLandsAux now r lands).needWeed = r.needWeed ++ needWeedIds lands now ∧
      (analyzeLandsAux now r lands).needBug = r.needBug ++ needBugIds lands now := by
  induction lands with
  | nil =>
    intro r _ _ _ _
    simp [analyzeLandsAux, catIds, needWaterIds, needWeedIds, needBugIds]
  | cons land rest ih =>
    intro r h1 h2 h3 hnd
    have hw : containsInt64 r.needWater land.id = false :=
      (containsInt64_eq_false_iff _ _).mpr (h1 land (List.mem_cons_self _ _))
    have hwd : containsInt64 r.needWeed land.id = false :=
      (containsInt64_eq_false_iff _ _).mpr (h2 land (List.mem_cons_self _ _))
    have hb : containsInt64 r.needBug land.id = false :=
      (containsInt64_eq_false_iff _ _).mpr (h3 land (List.mem_cons_self _ _))
    obtain ⟨s1, s2, s3, s4, s5, s6, s7⟩ := analyzeLandsStep_char now r land hw hwd hb
    have hnd' : (rest.map (·.id)).Nodup := (List.nodup_cons.mp (by simpa using hnd)).2
    have hni : land.id ∉ rest.map (·.id) := (List.nodup_cons.mp (by simpa using hnd)).1
    have hid : ∀ l ∈ rest, l.id ≠ land.id := by
      intro l hl he
      exact hni (he ▸ List.mem_map_of_mem (·.id) hl)
    have h1' : ∀ l ∈ rest, l.id ∉ (analyzeLandsStep now r land).needWater := by
      intro l hl hmem
      rw [s5, List.mem_append] at hmem
      rcases hmem with hmem | hmem
      · exact h1 l (List.mem_cons_of_mem _ hl) hmem
      · refine hid l hl ?_
        by_cases hc : classifyLand land now = LandCat.growing ∧ landNeedsWater land now = true
        · simpa [hc] using hmem
        · simp [hc] at hmem
    have h2' : ∀ l ∈ rest, l.id ∉ (analyzeLandsStep now r land).needWeed := by
      intro l hl hmem
      rw [s6, List.mem_append] at hmem
      rcases hmem with hmem | hmem
      · exact h2 l (List.mem_cons_of_mem _ hl) hmem
      · refine hid l hl ?_
        by_cases hc : classifyLand land now = LandCat.growing ∧ landNeedsWeed land now = true
        · simpa [hc] using hmem
        · simp [hc] at hmem
    have h3' : ∀ l ∈ rest, l.id ∉ (analyzeLandsStep now r land).needBug := by
      intro l hl hmem
      rw [s7, List.mem_append] at hmem
      rcases hmem with hmem | hmem
      · exact h3 l (List.mem_cons_of_mem _ hl) hmem
      · refine hid l hl ?_
        by_cases hc : classifyLand land now = LandCat.growing ∧ landNeedsBug land now = true
        · simpa [hc] using hmem
        · simp [hc] at hmem
    obtain ⟨e1, e2, e3, e4, e5, e6, e7⟩ :=
      ih (analyzeLandsStep now r land) h1' h2' h3' hnd'
    have hdef : analyzeLandsAux now r (land :: rest)
        = analyzeLandsAux now (analyzeLandsStep now r land) rest := rfl
    refine ⟨?_, ?_, ?_, ?_, ?_, ?_, ?_⟩
    · rw [hdef, e1, s1, catIds_cons, List.append_assoc]
    · rw [hdef, e2, s2, catIds_cons, List.append_assoc]
    · rw [hdef, e3, s3, catIds_cons, List.append_assoc]
    · rw [hdef, e4, s4, catIds_cons, List.append_assoc]
    · rw [hdef, e5, s5, needWaterIds_cons, List.append_assoc]
    · rw [hdef, e6, s6, needWeedIds_cons, List.append_assoc]
    · rw [hdef, e7, s7, needBugIds_cons, List.append_assoc]

/-- The output lists of `AnalyzeLands` on a duplicate-free snapshot. -/
lemma analyzeLands_eq (lands : List LandInfo) (now : Int)
    (hnd : (lands.map (·.id)).Nodup) :
    (analyzeLands lands now).empty = catIds lands now LandCat.empty ∧
    (analyzeLands lands now).dead = catIds lands now LandCat.dead ∧
    (analyzeLands lands now).harvestable = catIds lands now LandCat.harvestable ∧
    (analyzeLands lands now).growing = catIds lands now LandCat.growing ∧
    (analyzeLands lands now).needWater = needWaterIds lands now ∧
    (analyzeLands lands now).needWeed = needWeedIds lands now ∧
    (analyzeLands lands now).needBug = needBugIds lands now := by
  have := analyzeLandsAux_char now lands emptyLandStatus
    (by intro l _ h; simp [emptyLandStatus] at h)
    (by intro l _ h; simp [emptyLandStatus] at h)
    (by intro l _ h; simp [emptyLandStatus] at h) hnd
  simpa [analyzeLands, emptyLandStatus] using this

/-- Membership in a filtered id projection under an id-unique snapshot. -/
lemma mem_filter_map_id (lands : List LandInfo) (p : LandInfo → Bool)
    (hnd : (lands.map (·.id)).Nodup) {l : LandInfo} (hl : l ∈ lands) :
    l.id ∈ (lands.filter p).map (·.id) ↔ p l = true := by
  constructor
  · intro h
    rw [List.mem_map] at h
    obtain ⟨l', hl', hid⟩ := h
    rw [List.mem_filter] at hl'
    have : l' = l := List.inj_on_of_nodup_map hnd hl'.1 hl hid
    rw [← this]
    exact hl'.2
  · intro h
    exact List.mem_map_of_mem _ (List.mem_filter.mpr ⟨hl, h⟩)

/-- A member of a filtered id projection comes from a member satisfying the
filter. -/
lemma mem_filter_map_id_exists {lands : List LandInfo} {p : LandInfo → Bool} {x : Int}
    (h : x ∈ (lands.filter p).map (·.id)) :
    ∃ l ∈ lands, p l = true ∧ l.id = x := by
  rw [List.mem_map] at h
  obtain ⟨l', hl', hid⟩ := h
  rw [List.mem_filter] at hl'
  exact ⟨l', hl'.1, hl'.2, hid⟩

/-- Membership in a category list of the analyzer. -/
lemma mem_catIds (lands : List LandInfo) (now : Int) (c : LandCat)
    (hnd : (lands.map (·.id)).Nodup) {l : LandInfo} (hl : l ∈ lands) :
    l.id ∈ catIds lands now c ↔ classifyLand l now = c := by
  unfold catIds
  rw [mem_filter_map_id lands _ hnd hl, decide_eq_true_iff]

/-- Membership in the water-need list of the analyzer. -/
lemma mem_needWaterIds (lands : List LandInfo) (now : Int)
    (hnd : (lands.map (·.id)).Nodup) {l : LandInfo} (hl : l ∈ lands) :
    l.id ∈ needWaterIds lands now ↔
      (classifyLand l now = LandCat.growing ∧ landNeedsWater l now = true) := by
  unfold needWaterIds
  rw [mem_filter_map_id lands _ hnd hl]
  simp

/-- Membership in the weed-need list of the analyzer. -/
lemma mem_needWeedIds (lands : List LandInfo) (now : Int)
    (hnd : (lands.map (·.id)).Nodup) {l : LandInfo} (hl : l ∈ lands) :
    l.id ∈ needWeedIds lands now ↔
      (classifyLand l now = LandCat.growing ∧ landNeedsWeed l now = true) := by
  unfold needWeedIds
  rw [mem_filter_map_id lands _ hnd hl]
  simp

/-- Membership in the insect-need list of the analyzer. -/
lemma mem_needBugIds (lands : List LandInfo) (now : Int)
    (hnd : (lands.map (·.id)).Nodup) {l : LandInfo} (hl : l ∈ lands) :
    l.id ∈ needBugIds lands now ↔
      (classifyLand l now = LandCat.growing ∧ landNeedsBug l now = true) := by
  unfold needBugIds
  rw [mem_filter_map_id lands _ hnd hl]
  simp

/-- An unlocked land always gets one of the four real categories. -/
lemma classifyLand_cases (land : LandInfo) (now : Int) (hu : land.unlocked = true) :
    classifyLand land now = LandCat.empty ∨ classifyLand land now = LandCat.dead ∨
    classifyLand land now = LandCat.harvestable ∨ classifyLand land now = LandCat.growing := by
  simp only [classifyLand, hu, Bool.not_true]
  cases land.plant with
  | none => simp
  | some plant =>
    by_cases hph : plant.phases = []
    · simp [hph]
    · obtain ⟨cp, hcp⟩ := getCurrentPhase_isSome plant.phases now hph
      simp only [hph, hcp]
      split_ifs <;> simp_all

/-! ### C3: current-phase selection -/

/-- When the backward scan finds nothing, no phase has begun. -/
lemma findLastStarted_eq_none (phases : List PlantPhaseInfo) (now : Int)
    (h : findLastStarted phases now = none) :
    ∀ p ∈ phases, phaseStarted p now = false := by
  induction phases with
  | nil => intro p hp; cases hp
  | cons q rest ih =>
    intro p hp
    simp only [findLastStarted] at h
    cases hfr : findLastStarted rest now with
    | some q' => rw [hfr] at h; cases h
    | none =>
      rw [hfr] at h
      rcases List.mem_cons.mp hp with rfl | hp'
      · by_cases hs : phaseStarted p now = true
        · rw [if_pos hs] at h; cases h
        · simpa using hs
      · exact ih hfr p hp'

/-- The backward scan returns the latest begun phase: every phase after it
has not begun, and it itself has begun. -/
lemma findLastStarted_eq_some (phases : List PlantPhaseInfo) (now : Int)
    (q : PlantPhaseInfo) (h : findLastStarted phases now = some q) :
    ∃ pre post, phases = pre ++ q :: post ∧ phaseStarted q now = true ∧
      ∀ p ∈ post, phaseStarted p now = false := by
  induction phases with
  | nil => simp [findLastStarted] at h
  | cons a rest ih =>
    simp only [findLastStarted] at h
    cases hfr : findLastStarted rest now with
    | some q' =>
      rw [hfr] at h
      have hq : q' = q := Option.some.inj h
      obtain ⟨pre, post, heq, hs, hpost⟩ := ih (hq ▸ hfr)
      exact ⟨a :: pre, post, by rw [heq]; rfl, hs, hpost⟩
    | none =>
      rw [hfr] at h
      by_cases hs : phaseStarted a now = true
      · rw [if_pos hs] at h
        have ha : a = q := Option.some.inj h
        subst ha
        exact ⟨[], rest, rfl, hs, findLastStarted_eq_none rest now hfr⟩
      · rw [if_neg hs] at h; cases h

/-- C3 (amended): for every non-empty phase list, `getCurrentPhase` returns
a phase; it is the latest phase that has begun — begun meaning its
normalised `beginTime` is positive and ≤ now — and when no phase has begun
it is the first phase; in particular with begin times [100, 200, 300],
now = 250 selects the phase with begin time 200 and now = 50 selects the
first phase. -/
theorem getCurrentPhase_selection :
    (∀ (phases : List PlantPhaseInfo) (now : Int), phases ≠ [] →
      ∃ p, getCurrentPhase phases now = some p ∧
        ((∃ pre post, phases = pre ++ p :: post ∧ phaseStarted p now = true ∧
            ∀ q ∈ post, phaseStarted q now = false) ∨
          ((∀ q ∈ phases, phaseStarted q now = false) ∧ phases.head? = some p))) ∧
    getCurrentPhase [⟨1, 100, 0, 0, 0⟩, ⟨2, 200, 0, 0, 0⟩, ⟨3, 300, 0, 0, 0⟩] 250
      = some ⟨2, 200, 0, 0, 0⟩ ∧
    getCurrentPhase [⟨1, 100, 0, 0, 0⟩, ⟨2, 200, 0, 0, 0⟩, ⟨3, 300, 0, 0, 0⟩] 50
      = some ⟨1, 100, 0, 0, 0⟩ := by
  refine ⟨?_, by decide, by decide⟩
  intro phases now h
  cases phases with
  | nil => exact absurd rfl h
  | cons p rest =>
    simp only [getCurrentPhase]
    cases hfr : findLastStarted (p :: rest) now with
    | some q =>
      exact ⟨q, rfl, Or.inl (findLastStarted_eq_some _ now q hfr)⟩
    | none =>
      exact ⟨p, rfl, Or.inr ⟨findLastStarted_eq_none _ now hfr, rfl⟩⟩

/-- Witness for C3: the general selection statement applied to a singleton
phase list whose phase has not begun yet. -/
theorem getCurrentPhase_selection_witness :
    ∃ p, getCurrentPhase [(⟨1, 100, 0, 0, 0⟩ : PlantPhaseInfo)] 0 = some p ∧
      ((∃ pre post, [(⟨1, 100, 0, 0, 0⟩ : PlantPhaseInfo)] = pre ++ p :: post ∧
          phaseStarted p 0 = true ∧ ∀ q ∈ post, phaseStarted q 0 = false) ∨
        ((∀ q ∈ [(⟨1, 100, 0, 0, 0⟩ : PlantPhaseInfo)], phaseStarted q 0 = false) ∧
          [(⟨1, 100, 0, 0, 0⟩ : PlantPhaseInfo)].head? = some p)) :=
  getCurrentPhase_selection.1 [⟨1, 100, 0, 0, 0⟩] 0 (by decide)

/-- Counterexample to C3 as stated: with begin times [100, 0] and now = 150
the specification's rule ("latest phase whose beginTime ≤ now") selects the
second phase (beginTime 0 ≤ 150), but the code requires a positive
beginTime and selects the first phase instead. -/
theorem getCurrentPhase_claim_counterexample :
    specCurrentPhase [⟨1, 100, 0, 0, 0⟩, ⟨2, 0, 0, 0, 0⟩] 150 = some ⟨2, 0, 0, 0, 0⟩ ∧
    getCurrentPhase [⟨1, 100, 0, 0, 0⟩, ⟨2, 0, 0, 0, 0⟩] 150 = some ⟨1, 100, 0, 0, 0⟩ ∧
    (⟨1, 100, 0, 0, 0⟩ : PlantPhaseInfo) ≠ ⟨2, 0, 0, 0, 0⟩ := by
  refine ⟨by decide, by decide, by decide⟩

/-! ### C4: the analyzer partitions the unlocked plots -/

/-- C4: on a snapshot with pairwise distinct plot ids, every unlocked plot's
id lands in exactly one of the four category lists, a locked plot's id is in
no output list, and every need-flagged id is a growing plot's id. -/
theorem analyzeLands_partition (lands : List LandInfo) (now : Int)
    (hnd : (lands.map (·.id)).Nodup) :
    (∀ l ∈ lands, l.unlocked = true → catMemCount (analyzeLands lands now) l.id = 1) ∧
    (∀ l ∈ lands, l.unlocked = false →
      l.id ∉ (analyzeLands lands now).empty ∧ l.id ∉ (analyzeLands lands now).dead ∧
      l.id ∉ (analyzeLands lands now).harvestable ∧
      l.id ∉ (analyzeLands lands now).growing ∧
      l.id ∉ (analyzeLands lands now).needWater ∧
      l.id ∉ (analyzeLands lands now).needWeed ∧
      l.id ∉ (analyzeLands lands now).needBug) ∧
    (∀ x ∈ (analyzeLands lands now).needWater, x ∈ (analyzeLands lands now).growing) ∧
    (∀ x ∈ (analyzeLands lands now).needWeed, x ∈ (analyzeLands lands now).growing) ∧
    (∀ x ∈ (analyzeLands lands now).needBug, x ∈ (analyzeLands lands now).growing) := by
  obtain ⟨q1, q2, q3, q4, q5, q6, q7⟩ := analyzeLands_eq lands now hnd
  refine ⟨?_, ?_, ?_, ?_, ?_⟩
  · intro l hl hu
    rcases classifyLand_cases l now hu with hc | hc | hc | hc <;>
      simp [catMemCount, q1, q2, q3, q4, mem_catIds lands now _ hnd hl, hc]
  · intro l hl hu
    have hskip : classifyLand l now = LandCat.skip := by simp [classifyLand, hu]
    simp [q1, q2, q3, q4, q5, q6, q7, mem_catIds lands now _ hnd hl,
      mem_needWaterIds lands now hnd hl, mem_needWeedIds lands now hnd hl,
      mem_needBugIds lands now hnd hl, hskip]
  · intro x hx
    rw [q5] at hx
    unfold needWaterIds at hx
    obtain ⟨l', hl', hp, hid⟩ := mem_filter_map_id_exists hx
    simp only [Bool.and_eq_true, decide_eq_true_iff] at hp
    rw [q4, ← hid, mem_catIds lands now _ hnd hl']
    exact hp.1
  · intro x hx
    rw [q6] at hx
    unfold needWeedIds at hx
    obtain ⟨l', hl', hp, hid⟩ := mem_filter_map_id_exists hx
    simp only [Bool.and_eq_true, decide_eq_true_iff] at hp
    rw [q4, ← hid, mem_catIds lands now _ hnd hl']
    exact hp.1
  · intro x hx
    rw [q7] at hx
    unfold needBugIds at hx
    obtain ⟨l', hl', hp, hid⟩ := mem_filter_map_id_exists hx
    simp only [Bool.and_eq_true, decide_eq_true_iff] at hp
    rw [q4, ← hid, mem_catIds lands now _ hnd hl']
    exact hp.1

/-- Witness for C4: a two-plot snapshot, one unlocked and empty, one locked. -/
theorem analyzeLands_partition_witness :
    catMemCount (analyzeLands [⟨1, true, none⟩, ⟨2, false, none⟩] 0) 1 = 1 :=
  (analyzeLands_partition [⟨1, true, none⟩, ⟨2, false, none⟩] 0 (by decide)).1
    ⟨1, true, none⟩ (by decide) rfl

/-! ### Friend land analyzer (friend manager) -/

/-- The configuration constant `EnablePutBadThings` (default off). -/
def EnablePutBadThings : Bool := false

/-- Embedding of `FriendLandStatus`; `stealInfo` keeps
(landID, plantID, fruitNum), the plant-name lookup being external data. -/
structure FriendLandStatus where
  canSteal : List Int
  needWater : List Int
  needWeed : List Int
  needBug : List Int
  canPutWeeds : List Int
  canPutInsects : List Int
  stealInfo : List (Int × Int × Int)
deriving DecidableEq, Repr

/-- The zero-value `FriendLandStatus` the friend analyzer starts from. -/
def emptyFriendLandStatus : FriendLandStatus := ⟨[], [], [], [], [], [], []⟩

/-- One iteration of the loop body of `FriendManager.AnalyzeFriendLands`:
locked plots are skipped; an empty plot only feeds the (disabled)
put-bad-things lists; a missing current phase skips the plot; otherwise the
steal check, the three dual-detected need checks with `containsInt64`
de-duplication, and the (disabled) put-bad-things check run in source
order. -/
def analyzeFriendLandsStep (nowSec : Int) (result : FriendLandStatus) (land : LandInfo) :
    FriendLandStatus :=
  if !land.unlocked then result
  else
    match land.plant with
    | none =>
      if EnablePutBadThings then
        { result with
          canPutWeeds := result.canPutWeeds ++ [land.id]
          canPutInsects := result.canPutInsects ++ [land.id] }
      else result
    | some plant =>
      match getCurrentPhase plant.phases nowSec with
      | none => result
      | some currentPhase =>
        let r1 := if currentPhase.phase = PlantPhaseMature ∧ plant.stealable = true ∧
              0 < plant.leftFruitNum then
            { result with
              canSteal := result.canSteal ++ [land.id]
              stealInfo := result.stealInfo ++ [(land.id, plant.id, plant.leftFruitNum)] }
          else result
        let r2 := if 0 < plant.dryNum then
            { r1 with needWater := r1.needWater ++ [land.id] }
          else r1
        let dryTime := toTimeSec currentPhase.dryTime
        let r3 := if 0 < dryTime ∧ dryTime ≤ nowSec then
            (if containsInt64 r2.needWater land.id then r2
             else { r2 with needWater := r2.needWater ++ [land.id] })
          else r2
        let r4 := if 0 < plant.weedOwners.length then
            { r3 with needWeed := r3.needWeed ++ [land.id] }
          else r3
        let weedsTime := toTimeSec currentPhase.weedsTime
        let r5 := if 0 < weedsTime ∧ weedsTime ≤ nowSec then
            (if containsInt64 r4.needWeed land.id then r4
             else { r4 with needWeed := r4.needWeed ++ [land.id] })
          else r4
        let r6 := if 0 < plant.insectOwners.length then
            { r5 with needBug := r5.needBug ++ [land.id] }
          else r5
        let insectTime := toTimeSec currentPhase.insectTime
        let r7 := if 0 < insectTime ∧ insectTime ≤ nowSec then
            (if containsInt64 r6.needBug land.id then r6
             else { r6 with needBug := r6.needBug ++ [land.id] })
          else r6
        if EnablePutBadThings = true ∧ currentPhase.phase ≠ PlantPhaseDead ∧
            currentPhase.phase ≠ PlantPhaseMature then
          { r7 with
            canPutWeeds := r7.canPutWeeds ++ [land.id]
            canPutInsects := r7.canPutInsects ++ [land.id] }
        else r7

/-- The loop of `FriendManager.AnalyzeFriendLands` over the snapshot. -/
def analyzeFriendLandsAux (nowSec : Int) (result : FriendLandStatus) :
    List LandInfo → FriendLandStatus
  | [] => result
  | land :: rest => analyzeFriendLandsAux nowSec (analyzeFriendLandsStep nowSec result land) rest

/-- Embedding of `FriendManager.AnalyzeFriendLands`. -/
def analyzeFriendLands (lands : List LandInfo) (nowSec : Int) : FriendLandStatus :=
  analyzeFriendLandsAux nowSec emptyFriendLandStatus lands

/-- Whether the friend analyzer reaches this land's need checks at all:
unlocked, planted and with a current phase. -/
def friendActive (land : LandInfo) (nowSec : Int) : Bool :=
  land.unlocked &&
    (match land.plant with
     | none => false
     | some plant => (getCurrentPhase plant.phases nowSec).isSome)

/-- The ids the friend analyzer is expected to flag as needing water. -/
def friendNeedWaterIds (lands : List LandInfo) (nowSec : Int) : List Int :=
  (lands.filter fun l => friendActive l nowSec && landNeedsWater l nowSec).map (·.id)

/-- The ids the friend analyzer is expected to flag as needing weeding. -/
def friendNeedWeedIds (lands : List LandInfo) (nowSec : Int) : List Int :=
  (lands.filter fun l => friendActive l nowSec && landNeedsWeed l nowSec).map (·.id)

/-- The ids the friend analyzer is expected to flag as needing insect
removal. -/
def friendNeedBugIds (lands : List LandInfo) (nowSec : Int) : List Int :=
  (lands.filter fun l => friendActive l nowSec && landNeedsBug l nowSec).map (·.id)

/-- Effect of one `AnalyzeFriendLands` loop iteration on the three need
lists, assuming the land's id is not yet flagged in any of them. -/
lemma analyzeFriendLandsStep_char (now : Int) (r : FriendLandStatus) (land : LandInfo)
    (hw : containsInt64 r.needWater land.id = false)
    (hwd : containsInt64 r.needWeed land.id = false)
    (hb : containsInt64 r.needBug land.id = false) :
    (analyzeFriendLandsStep now r land).needWater
      = r.needWater ++
        (if friendActive land now = true ∧ landNeedsWater land now = true
          then [land.id] else []) ∧
    (analyzeFriendLandsStep now r land).needWeed
      = r.needWeed ++
        (if friendActive land now = true ∧ landNeedsWeed land now = true
          then [land.id] else []) ∧
    (analyzeFriendLandsStep now r land).needBug
      = r.needBug ++
        (if friendActive land now = true ∧ landNeedsBug land now = true
          then [land.id] else []) := by
  cases hu : land.unlocked with
  | false => simp [analyzeFriendLandsStep, friendActive, hu]
  | true =>
    cases hpl : land.plant with
    | none =>
      simp [analyzeFriendLandsStep, friendActive, hu, hpl, EnablePutBadThings]
    | some plant =>
      cases hcp : getCurrentPhase plant.phases now with
      | none =>
        simp [analyzeFriendLandsStep, friendActive, hu, hpl, hcp]
      | some cp =>
        have hact : friendActive land now = true := by simp [friendActive, hu, hpl, hcp]
        have hcw : containsInt64 (r.needWater ++ [land.id]) land.id = true := by
          simp [containsInt64_iff]
        have hcwd : containsInt64 (r.needWeed ++ [land.id]) land.id = true := by
          simp [containsInt64_iff]
        have hcb : containsInt64 (r.needBug ++ [land.id]) land.id = true := by
          simp [containsInt64_iff]
        refine ⟨?_, ?_, ?_⟩ <;>
          simp only [analyzeFriendLandsStep, hu, hpl, hcp, EnablePutBadThings,
            Bool.not_true, Bool.false_eq_true, if_false, false_and,
            apply_ite FriendLandStatus.needWater, apply_ite FriendLandStatus.needWeed,
            apply_ite FriendLandStatus.needBug, ite_self]
        · simp only [hact, landNeedsWater, hpl, hcp, true_and]
          by_cases c1 : 0 < plant.dryNum <;>
            by_cases c2 : 0 < toTimeSec cp.dryTime ∧ toTimeSec cp.dryTime ≤ now <;>
            simp [c1, c2, hw, hcw]
        · simp only [hact, landNeedsWeed, hpl, hcp, true_and]
          by_cases c3 : 0 < plant.weedOwners.length <;>
            by_cases c4 : 0 < toTimeSec cp.weedsTime ∧ toTimeSec cp.weedsTime ≤ now <;>
            simp [c3, c4, hwd, hcwd]
        · simp only [hact, landNeedsBug, hpl, hcp, true_and]
          by_cases c5 : 0 < plant.insectOwners.length <;>
            by_cases c6 : 0 < toTimeSec cp.insectTime ∧ toTimeSec cp.insectTime ≤ now <;>
            simp [c5, c6, hb, hcb]

/-- `friendNeedWaterIds` over a cons. -/
lemma friendNeedWaterIds_cons (land : LandInfo) (rest : List LandInfo) (now : Int) :
    friendNeedWaterIds (land :: rest) now
      = (if friendActive land now = true ∧ landNeedsWater land now = true
          then [land.id] else []) ++ friendNeedWaterIds rest now := by
  simp only [friendNeedWaterIds, List.filter_cons]
  split_ifs <;> simp_all

/-- `friendNeedWeedIds` over a cons. -/
lemma friendNeedWeedIds_cons (land : LandInfo) (rest : List LandInfo) (now : Int) :
    friendNeedWeedIds (land :: rest) now
      = (if friendActive land now = true ∧ landNeedsWeed land now = true
          then [land.id] else []) ++ friendNeedWeedIds rest now := by
  simp only [friendNeedWeedIds, List.filter_cons]
  split_ifs <;> simp_all

/-- `friendNeedBugIds` over a cons. -/
lemma friendNeedBugIds_cons (land : LandInfo) (rest : List LandInfo) (now : Int) :
    friendNeedBugIds (land :: rest) now
      = (if friendActive land now = true ∧ landNeedsBug land now = true
          then [land.id] else []) ++ friendNeedBugIds rest now := by
  simp only [friendNeedBugIds, List.filter_cons]
  split_ifs <;> simp_all

/-- Characterization of the `AnalyzeFriendLands` loop on the need lists. -/
lemma analyzeFriendLandsAux_char (now : Int) (lands : List LandInfo) :
    ∀ r : FriendLandStatus,
      (∀ l ∈ lands, l.id ∉ r.needWater) →
      (∀ l ∈ lands, l.id ∉ r.needWeed) →
      (∀ l ∈ lands, l.id ∉ r.needBug) →
      (lands.map (·.id)).Nodup →
      (analyzeFriendLandsAux now r lands).needWater
        = r.needWater ++ friendNeedWaterIds lands now ∧
      (analyzeFriendLandsAux now r lands).needWeed
        = r.needWeed ++ friendNeedWeedIds lands now ∧
      (analyzeFriendLandsAux now r lands).needBug
        = r.needBug ++ friendNeedBugIds lands now := by
  induction lands with
  | nil =>
    intro r _ _ _ _
    simp [analyzeFriendLandsAux, friendNeedWaterIds, friendNeedWeedIds, friendNeedBugIds]
  | cons land rest ih =>
    intro r h1 h2 h3 hnd
    have hw : containsInt64 r.needWater land.id = false :=
      (containsInt64_eq_false_iff _ _).mpr (h1 land (List.mem_cons_self _ _))
    have hwd : containsInt64 r.needWeed land.id = false :=
      (containsInt64_eq_false_iff _ _).mpr (h2 land (List.mem_cons_self _ _))
    have hb : containsInt64 r.needBug land.id = false :=
      (containsInt64_eq_false_iff _ _).mpr (h3 land (List.mem_cons_self _ _))
    obtain ⟨s1, s2, s3⟩ := analyzeFriendLandsStep_char now r land hw hwd hb
    have hnd' : (rest.map (·.id)).Nodup := (List.nodup_cons.mp (by simpa using hnd)).2
    have hni : land.id ∉ rest.map (·.id) := (List.nodup_cons.mp (by simpa using hnd)).1
    have hid : ∀ l ∈ rest, l.id ≠ land.id := by
      intro l hl he
      exact hni (he ▸ List.mem_map_of_mem (·.id) hl)
    have h1' : ∀ l ∈ rest, l.id ∉ (analyzeFriendLandsStep now r land).needWater := by
      intro l hl hmem
      rw [s1, List.mem_append] at hmem
      rcases hmem with hmem | hmem
      · exact h1 l (List.mem_cons_of_mem _ hl) hmem
      · refine hid l hl ?_
        by_cases hc : friendActive land now = true ∧ landNeedsWater land now = true
        · simpa [hc] using hmem
        · simp [hc] at hmem
    have h2' : ∀ l ∈ rest, l.id ∉ (analyzeFriendLandsStep now r land).needWeed := by
      intro l hl hmem
      rw [s2, List.mem_append] at hmem
      rcases hmem with hmem | hmem
      · exact h2 l (List.mem_cons_of_mem _ hl) hmem
      · refine hid l hl ?_
        by_cases hc : friendActive land now = true ∧ landNeedsWeed land now = true
        · simpa [hc] using hmem
        · simp [hc] at hmem
    have h3' : ∀ l ∈ rest, l.id ∉ (analyzeFriendLandsStep now r land).needBug := by
      intro l hl hmem
      rw [s3, List.mem_append] at hmem
      rcases hmem with hmem | hmem
      · exact h3 l (List.mem_cons_of_mem _ hl) hmem
      · refine hid l hl ?_
        by_cases hc : friendActive land now = true ∧ landNeedsBug land now = true
        · simpa [hc] using hmem
        · simp [hc] at hmem
    obtain ⟨e1, e2, e3⟩ := ih (analyzeFriendLandsStep now r land) h1' h2' h3' hnd'
    have hdef : analyzeFriendLandsAux now r (land :: rest)
        = analyzeFriendLandsAux now (analyzeFriendLandsStep now r land) rest := rfl
    refine ⟨?_, ?_, ?_⟩
    · rw [hdef, e1, s1, friendNeedWaterIds_cons, List.append_assoc]
    · rw [hdef, e2, s2, friendNeedWeedIds_cons, List.append_assoc]
    · rw [hdef, e3, s3, friendNeedBugIds_cons, List.append_assoc]

/-- The need lists of `AnalyzeFriendLands` on a duplicate-free snapshot. -/
lemma analyzeFriendLands_eq (lands : List LandInfo) (now : Int)
    (hnd : (lands.map (·.id)).Nodup) :
    (analyzeFriendLands lands now).needWater = friendNeedWaterIds lands now ∧
    (analyzeFriendLands lands now).needWeed = friendNeedWeedIds lands now ∧
    (analyzeFriendLands lands now).needBug = friendNeedBugIds lands now := by
  have := analyzeFriendLandsAux_char now lands emptyFriendLandStatus
    (by intro l _ h; simp [emptyFriendLandStatus] at h)
    (by intro l _ h; simp [emptyFriendLandStatus] at h)
    (by intro l _ h; simp [emptyFriendLandStatus] at h) hnd
  simpa [analyzeFriendLands, emptyFriendLandStatus] using this

/-- Membership in the friend water-need list. -/
lemma mem_friendNeedWaterIds (lands : List LandInfo) (now : Int)
    (hnd : (lands.map (·.id)).Nodup) {l : LandInfo} (hl : l ∈ lands) :
    l.id ∈ friendNeedWaterIds lands now ↔
      (friendActive l now = true ∧ landNeedsWater l now = true) := by
  unfold friendNeedWaterIds
  rw [mem_filter_map_id lands _ hnd hl]
  simp

/-- Membership in the friend weed-need list. -/
lemma mem_friendNeedWeedIds (lands : List LandInfo) (now : Int)
    (hnd : (lands.map (·.id)).Nodup) {l : LandInfo} (hl : l ∈ lands) :
    l.id ∈ friendNeedWeedIds lands now ↔
      (friendActive l now = true ∧ landNeedsWeed l now = true) := by
  unfold friendNeedWeedIds
  rw [mem_filter_map_id lands _ hnd hl]
  simp

/-- Membership in the friend insect-need list. -/
lemma mem_friendNeedBugIds (lands : List LandInfo) (now : Int)
    (hnd : (lands.map (·.id)).Nodup) {l : LandInfo} (hl : l ∈ lands) :
    l.id ∈ friendNeedBugIds lands now ↔
      (friendActive l now = true ∧ landNeedsBug l now = true) := by
  unfold friendNeedBugIds
  rw [mem_filter_map_id lands _ hnd hl]
  simp

/-- C5: dual detection.  In both analyzers, a growing plot (for the friend
analyzer: any unlocked, planted plot with a current phase) is flagged
needs-water iff `dryCount > 0` or its normalised dry threshold is positive
and has elapsed; the same OR-rule holds independently for weeds (owners
present or weed threshold elapsed) and insects; and on an id-unique
snapshot every need list is duplicate-free, so a plot id occurs at most
once per need list even when both detection conditions hold. -/
theorem analyzeLands_dual_detection (lands : List LandInfo) (now : Int)
    (hnd : (lands.map (·.id)).Nodup) :
    (∀ l ∈ lands, ∀ plant, l.plant = some plant → ∀ cp,
      getCurrentPhase plant.phases now = some cp →
      classifyLand l now = LandCat.growing →
      ((l.id ∈ (analyzeLands lands now).needWater ↔
          (0 < plant.dryNum ∨ (0 < toTimeSec cp.dryTime ∧ toTimeSec cp.dryTime ≤ now))) ∧
       (l.id ∈ (analyzeLands lands now).needWeed ↔
          (0 < plant.weedOwners.length ∨
            (0 < toTimeSec cp.weedsTime ∧ toTimeSec cp.weedsTime ≤ now))) ∧
       (l.id ∈ (analyzeLands lands now).needBug ↔
          (0 < plant.insectOwners.length ∨
            (0 < toTimeSec cp.insectTime ∧ toTimeSec cp.insectTime ≤ now))))) ∧
    (analyzeLands lands now).needWater.Nodup ∧
    (analyzeLands lands now).needWeed.Nodup ∧
    (analyzeLands lands now).needBug.Nodup ∧
    (∀ l ∈ lands, l.unlocked = true → ∀ plant, l.plant = some plant → ∀ cp,
      getCurrentPhase plant.phases now = some cp →
      ((l.id ∈ (analyzeFriendLands lands now).needWater ↔
          (0 < plant.dryNum ∨ (0 < toTimeSec cp.dryTime ∧ toTimeSec cp.dryTime ≤ now))) ∧
       (l.id ∈ (analyzeFriendLands lands now).needWeed ↔
          (0 < plant.weedOwners.length ∨
            (0 < toTimeSec cp.weedsTime ∧ toTimeSec cp.weedsTime ≤ now))) ∧
       (l.id ∈ (analyzeFriendLands lands now).needBug ↔
          (0 < plant.insectOwners.length ∨
            (0 < toTimeSec cp.insectTime ∧ toTimeSec cp.insectTime ≤ now))))) ∧
    (analyzeFriendLands lands now).needWater.Nodup ∧
    (analyzeFriendLands lands now).needWeed.Nodup ∧
    (analyzeFriendLands lands now).needBug.Nodup := by
  obtain ⟨q1, q2, q3, q4, q5, q6, q7⟩ := analyzeLands_eq lands now hnd
  obtain ⟨f1, f2, f3⟩ := analyzeFriendLands_eq lands now hnd
  have hsub : ∀ p : LandInfo → Bool, ((lands.filter p).map (·.id)).Nodup := fun p =>
    List.Nodup.sublist (List.Sublist.map _ (List.filter_sublist lands)) hnd
  refine ⟨?_, ?_, ?_, ?_, ?_, ?_, ?_, ?_⟩
  · intro l hl plant hpl cp hcp hgrow
    refine ⟨?_, ?_, ?_⟩
    · rw [q5, mem_needWaterIds lands now hnd hl]
      simp [hgrow, landNeedsWater, hpl, hcp]
    · rw [q6, mem_needWeedIds lands now hnd hl]
      simp [hgrow, landNeedsWeed, hpl, hcp]
    · rw [q7, mem_needBugIds lands now hnd hl]
      simp [hgrow, landNeedsBug, hpl, hcp]
  · rw [q5]; exact hsub _
  · rw [q6]; exact hsub _
  · rw [q7]; exact hsub _
  · intro l hl hu plant hpl cp hcp
    have hact : friendActive l now = true := by simp [friendActive, hu, hpl, hcp]
    refine ⟨?_, ?_, ?_⟩
    · rw [f1, mem_friendNeedWaterIds lands now hnd hl]
      simp [hact, landNeedsWater, hpl, hcp]
    · rw [f2, mem_friendNeedWeedIds lands now hnd hl]
      simp [hact, landNeedsWeed, hpl, hcp]
    · rw [f3, mem_friendNeedBugIds lands now hnd hl]
      simp [hact, landNeedsBug, hpl, hcp]
  · rw [f1]; exact hsub _
  · rw [f2]; exact hsub _
  · rw [f3]; exact hsub _

/-- Witness for C5: one growing plot with `dryCount = 0` whose dry threshold
(200) has elapsed at now = 250 is flagged needs-water, and a second plot
with `dryCount > 0` but a future dry threshold (400) is flagged too. -/
theorem analyzeLands_dual_detection_witness :
    let p1 : PlantInfo := ⟨7, [⟨1, 100, 200, 0, 0⟩], 0, [], [], false, 0⟩
    let p2 : PlantInfo := ⟨8, [⟨1, 100, 400, 0, 0⟩], 2, [], [], false, 0⟩
    let lands : List LandInfo := [⟨1, true, some p1⟩, ⟨2, true, some p2⟩]
    (1 : Int) ∈ (analyzeLands lands 250).needWater ∧
    (2 : Int) ∈ (analyzeLands lands 250).needWater := by
  intro p1 p2 lands
  constructor
  · exact (((analyzeLands_dual_detection lands 250 (by decide)).1
      ⟨1, true, some p1⟩ (by decide) p1 rfl ⟨1, 100, 200, 0, 0⟩ (by decide)
      (by decide)).1).mpr (by decide)
  · exact (((analyzeLands_dual_detection lands 250 (by decide)).1
      ⟨2, true, some p2⟩ (by decide) p2 rfl ⟨1, 100, 400, 0, 0⟩ (by decide)
      (by decide)).1).mpr (by decide)

/-! ### C8: the budget step of AutoPlantEmptyLands -/

/-- Embedding of the budget block of `FarmManager.AutoPlantEmptyLands`
(farm.go): the total cost of one seed per candidate plot is compared with
the current gold; when it exceeds the gold, `canBuy := gold / price` is
computed with Go's truncating integer division and the plantable list is
cut to its first `canBuy` plots — unless `canBuy ≤ 0`, in which case the
function returns the insufficient-funds error; otherwise the full list is
kept. -/
def autoPlantBudget (landsToPlant : List Int) (price gold : Int) :
    Except String (List Int) :=
  let totalCost := price * landsToPlant.length
  if gold < totalCost then
    let canBuy := Int.tdiv gold price
    if canBuy ≤ 0 then Except.error "金币不足"
    else Except.ok (landsToPlant.take canBuy.toNat)
  else Except.ok landsToPlant

/-- Counterexample to C8 as stated: one candidate plot, seed price 10 and
gold 5 — the total cost exceeds the gold, yet instead of proceeding on the
affordable prefix of floor(5/10) = 0 plots the operation fails outright
with the insufficient-funds error. -/
theorem autoPlantBudget_claim_counterexample :
    ((5 : Int) < 10 * (([1] : List Int).length : Int)) ∧
    autoPlantBudget [1] 10 5 = Except.error "金币不足" := by
  exact ⟨by norm_num, rfl⟩

/-- C8 (amended): when the total seed cost exceeds the gold and at least
one seed is affordable, the planting set is cut to the affordable prefix of
floor(gold / price) plots — a strictly smaller set — and planting proceeds;
when not even one seed is affordable the step fails with the
insufficient-funds error; and when the budget suffices the whole set is
kept. -/
theorem autoPlantBudget_shrinks (landsToPlant : List Int) (price gold : Int)
    (hp : 0 < price) (hg : 0 ≤ gold) :
    (gold < price * landsToPlant.length → price ≤ gold →
      autoPlantBudget landsToPlant price gold
        = Except.ok (landsToPlant.take (gold / price).toNat) ∧
      (gold / price).toNat < landsToPlant.length) ∧
    (gold < price → landsToPlant ≠ [] →
      autoPlantBudget landsToPlant price gold = Except.error "金币不足") ∧
    (price * landsToPlant.length ≤ gold →
      autoPlantBudget landsToPlant price gold = Except.ok landsToPlant) := by
  have htdiv : Int.tdiv gold price = gold / price :=
    Int.tdiv_eq_ediv hg (le_of_lt hp)
  refine ⟨?_, ?_, ?_⟩
  · intro hlt hpg
    have hone : 1 ≤ gold / price := by
      rw [Int.le_ediv_iff_mul_le hp]
      simpa using hpg
    have hdivlt : gold / price < (landsToPlant.length : Int) := by
      rw [Int.ediv_lt_iff_lt_mul hp]
      calc gold < price * landsToPlant.length := hlt
        _ = (landsToPlant.length : Int) * price := mul_comm _ _
    constructor
    · simp only [autoPlantBudget, if_pos hlt, htdiv]
      rw [if_neg (by omega)]
    · omega
  · intro hlt hne
    have h0 : 1 ≤ (landsToPlant.length : Int) := by
      have := List.length_pos.mpr hne
      omega
    have hlen : gold < price * landsToPlant.length :=
      lt_of_lt_of_le hlt (le_mul_of_one_le_right (le_of_lt hp) h0)
    have hzero : gold / price = 0 := Int.ediv_eq_zero_of_lt hg hlt
    simp only [autoPlantBudget, if_pos hlen, htdiv, hzero]
    rfl
  · intro hle
    simp only [autoPlantBudget]
    rw [if_neg (by omega)]

/-! ### C9: per-plot loops of PlantSeeds and Fertilize -/

/-- Embedding of the loop of `FarmManager.PlantSeeds`: one Plant request
per land; a failed request is logged and skipped (`continue`), so the loop
reaches every land.  The network outcome is abstracted by `err` (true means
`SendProtoMessage` returned an error for that land).  Returns the success
count together with the list of lands actually attempted, in order. -/
def plantSeedsRun (err : Int → Bool) : List Int → Nat × List Int
  | [] => (0, [])
  | landId :: rest =>
    let r := plantSeedsRun err rest
    if err landId then (r.1, landId :: r.2) else (r.1 + 1, landId :: r.2)

/-- Embedding of the loop of `FarmManager.Fertilize`: one Fertilize request
per land; on the first failed request the loop stops (`break`, "可能肥料不足"),
skipping every remaining land. -/
def fertilizeRun (err : Int → Bool) : List Int → Nat × List Int
  | [] => (0, [])
  | landId :: rest =>
    if err landId then (0, [landId])
    else
      let r := fertilizeRun err rest
      (r.1 + 1, landId :: r.2)

/-- Counterexample to C9 as stated: fertilizing plots [1, 2] where the
request for plot 1 fails — plot 2 is never attempted, so a fertilizer
failure does block the remaining plots. -/
theorem fertilize_claim_counterexample :
    (fertilizeRun (fun landId => landId == 1) [1, 2]).2 = [1] ∧
    [(1 : Int)] ≠ [1, 2] :=
  ⟨rfl, by decide⟩

/-- C9 (amended): planting failures never block later plots — every plot in
the list is attempted and the success count is the number of non-failing
plots; fertilizing instead stops at the first failure — with no failures
every plot is attempted and succeeds, and in general exactly the plots up
to and including the first failing one are attempted. -/
theorem plant_fertilize_partial_failures (err : Int → Bool) (lands : List Int) :
    (plantSeedsRun err lands).2 = lands ∧
    (plantSeedsRun err lands).1 = (lands.filter (fun landId => !err landId)).length ∧
    ((∀ landId ∈ lands, err landId = false) →
      fertilizeRun err lands = (lands.length, lands)) ∧
    (fertilizeRun err lands).2
      = lands.takeWhile (fun landId => !err landId)
        ++ (lands.dropWhile (fun landId => !err landId)).take 1 := by
  induction lands with
  | nil => simp [plantSeedsRun, fertilizeRun]
  | cons a rest ih =>
    refine ⟨?_, ?_, ?_, ?_⟩
    · by_cases ha : err a = true <;> simp [plantSeedsRun, ha, ih.1]
    · by_cases ha : err a = true <;> simp [plantSeedsRun, ha, ih.2.1]
    · intro hall
      have ha : err a = false := hall a (List.mem_cons_self _ _)
      have hrest := ih.2.2.1 (fun l hl => hall l (List.mem_cons_of_mem _ hl))
      simp [fertilizeRun, ha, hrest]
    · by_cases ha : err a = true <;>
        simp [fertilizeRun, ha, ih.2.2.2, List.takeWhile_cons, List.dropWhile_cons]

/-- Witness for C9 (amended): with plot 2 failing, planting still attempts
all of [1, 2, 3]; with no failures, fertilizing covers both plots. -/
theorem plant_fertilize_partial_failures_witness :
    (plantSeedsRun (fun landId => landId == 2) [1, 2, 3]).2 = [1, 2, 3] ∧
    fertilizeRun (fun _ => false) [1, 2] = (2, [1, 2]) :=
  ⟨(plant_fertilize_partial_failures (fun landId => landId == 2) [1, 2, 3]).1,
   (plant_fertilize_partial_failures (fun _ => false) [1, 2]).2.2.1 (by simp)⟩

/-- Witness for C8 (amended): three plots at price 10 with 15 gold shrink to
the single affordable plot. -/
theorem autoPlantBudget_shrinks_witness :
    autoPlantBudget [1, 2, 3] 10 15 = Except.ok [1] ∧
    ((15 : Int) / 10).toNat < ([1, 2, 3] : List Int).length := by
  have h := (autoPlantBudget_shrinks [1, 2, 3] 10 15 (by norm_num) (by norm_num)).1
    (by norm_num) (by norm_num)
  refine ⟨?_, h.2⟩
  rw [h.1]
  rfl

end GoFarm
